import Mathlib

/-!
Verification of the message-store core of a WhatsApp-style direct-messaging
backend (Mongoose `Message` model, `messageController`, helper utilities).

Shallow embedding conventions:
* user ids and message ids are `Nat`; timestamps are `Nat` milliseconds;
* the store is the list of persisted message documents, in insertion order;
* MongoDB `updateMany` conditional bulk updates become `List.map` with the
  update applied only where the filter matches;
* `sort({createdAt: -1})` becomes a deterministic insertion sort descending
  by `createdAt` (MongoDB leaves tie order unspecified);
* JavaScript string `.length` (UTF-16 code units) is `utf16Length`;
  `.trim()` is `jsTrim` (whitespace stripped from both ends);
* fallible controllers return `Except Err _` together with the resulting
  store, the store unchanged on the error path exactly where the JS code
  returns before mutating.
-/

namespace WhatsApp

/-- The `status` enum of the message schema: `['sent', 'delivered', 'read']`. -/
inductive Status where
  | sent
  | delivered
  | read
deriving DecidableEq, Repr

/-- The `messageType` enum of the message schema: `['text', 'emoji']`. -/
inductive MessageType where
  | text
  | emoji
deriving DecidableEq, Repr

/-- Error taxonomy of the controllers (HTTP 404 / 403 / 400 / 400). -/
inductive Err where
  | notFound
  | forbidden
  | validation
  | invalidState
deriving DecidableEq, Repr

/-- A persisted message document (`messageSchema` fields). -/
structure Message where
  id : Nat
  sender : Nat
  receiver : Nat
  content : String
  messageType : MessageType
  status : Status
  deliveredAt : Option Nat
  readAt : Option Nat
  editedAt : Option Nat
  isDeleted : Bool
  deletedAt : Option Nat
  replyTo : Option Nat
  createdAt : Nat
deriving DecidableEq, Repr

/-- The message collection, in insertion order. -/
abbrev Store := List Message

/-! ### String helpers (JavaScript semantics) -/

/-- Whitespace characters removed by JavaScript `String.prototype.trim`
(the ones that can occur in this codebase's inputs). -/
def isWS (c : Char) : Bool :=
  c == ' ' || c == '\t' || c == '\n' || c == '\r' || c == '\x0b' || c == '\x0c'

/-- Drop leading whitespace from a character list. -/
def trimLeftChars : List Char → List Char
  | [] => []
  | c :: cs => if isWS c then trimLeftChars cs else c :: cs

/-- JavaScript `s.trim()`. -/
def jsTrim (s : String) : String :=
  ⟨(trimLeftChars (trimLeftChars s.data.reverse).reverse)⟩

/-- JavaScript `s.length`: number of UTF-16 code units (code points beyond
the BMP count as a surrogate pair, i.e. 2). -/
def utf16Length (s : String) : Nat :=
  (s.data.map (fun c => if c.toNat < 0x10000 then 1 else 2)).sum

/-- One character falls in the ranges of the `containsEmoji` regex
`/[\u{1F600}-\u{1F64F}]|[\u{1F300}-\u{1F5FF}]|[\u{1F680}-\u{1F6FF}]|[\u{1F1E0}-\u{1F1FF}]|[\u{2600}-\u{26FF}]|[\u{2700}-\u{27BF}]/u`. -/
def isEmojiChar (c : Char) : Bool :=
  let n := c.toNat
  (0x1F600 ≤ n && n ≤ 0x1F64F) || (0x1F300 ≤ n && n ≤ 0x1F5FF) ||
  (0x1F680 ≤ n && n ≤ 0x1F6FF) || (0x1F1E0 ≤ n && n ≤ 0x1F1FF) ||
  (0x2600 ≤ n && n ≤ 0x26FF) || (0x2700 ≤ n && n ≤ 0x27BF)

/-- Embedding of `containsEmoji` from `src/utils/helpers.js`: the regex tests whether the
string contains at least one character in the emoji ranges. -/
def containsEmoji (s : String) : Bool :=
  s.data.any isEmojiChar

/-- The auto-detection expression of `sendMessage`/`editMessage`:
`containsEmoji(content) && content.trim().length <= 10 ? 'emoji' : 'text'`. -/
def detectMessageType (content : String) : MessageType :=
  if containsEmoji content ∧ utf16Length (jsTrim content) ≤ 10 then
    MessageType.emoji
  else
    MessageType.text

/-! ### Query plumbing -/

/-- The conversation-membership filter used by `getConversation`, `search`
and the conversation count: `$or` of the two (sender, receiver) orientations. -/
def inPair (a b : Nat) (m : Message) : Bool :=
  (m.sender == a && m.receiver == b) || (m.sender == b && m.receiver == a)

/-- Insert into a list already sorted by `key` descending. -/
def insertKeyDesc (key : α → Nat) (m : α) : List α → List α
  | [] => [m]
  | n :: ns => if key n < key m then m :: n :: ns else n :: insertKeyDesc key m ns

/-- Deterministic sort by `key` descending (used for `sort({createdAt: -1})`
and the aggregation's final `$sort`; MongoDB leaves tie order unspecified). -/
def sortKeyDesc (key : α → Nat) : List α → List α
  | [] => []
  | m :: ms => insertKeyDesc key m (sortKeyDesc key ms)

/-- Embedding of `sort({createdAt: -1})`: newest first. -/
def sortDesc : List Message → List Message :=
  sortKeyDesc Message.createdAt

/-- Embedding of `skip((page-1)*limit).limit(limit)`. -/
def pageSlice (page limit : Nat) (l : List Message) : List Message :=
  (l.drop ((page - 1) * limit)).take limit

/-- Embedding of `findById`: the unique document with the given `_id` (soft-deleted
documents included — `findById` does not filter on `isDeleted`). -/
def findById (st : Store) (i : Nat) : Option Message :=
  st.find? (fun m => m.id == i)

/-- Fresh `_id` for a newly created document. -/
def nextId (st : Store) : Nat :=
  (st.map Message.id).foldr max 0 + 1

/-! ### Message model static methods (`src/unnamed/part_000`) -/

/-- Embedding of `Message.getConversation(userId1, userId2, page, limit)`: non-deleted
messages of the unordered pair, newest first, paginated. (The controller
then reverses the page so the response is oldest-first.) -/
def getConversation (st : Store) (a b page limit : Nat) : List Message :=
  pageSlice page limit (sortDesc (st.filter (fun m => inPair a b m && !m.isDeleted)))

/-- Per-document effect of the `markAsDelivered` bulk update. -/
def deliverOne (s r now : Nat) (m : Message) : Message :=
  if m.sender = s ∧ m.receiver = r ∧ m.status = Status.sent then
    { m with status := Status.delivered, deliveredAt := some now }
  else m

/-- Embedding of `Message.markAsDelivered(senderId, receiverId)`: bulk update
`status: 'sent' → 'delivered'`, stamping `deliveredAt`. -/
def markAsDelivered (st : Store) (s r now : Nat) : Store :=
  st.map (deliverOne s r now)

/-- Per-document effect of the `markAsRead` bulk update. -/
def readOne (s r now : Nat) (m : Message) : Message :=
  if m.sender = s ∧ m.receiver = r ∧ (m.status = Status.sent ∨ m.status = Status.delivered) then
    { m with status := Status.read, readAt := some now }
  else m

/-- Embedding of `Message.markAsRead(senderId, receiverId)`: bulk update
`status in ['sent','delivered'] → 'read'`, stamping `readAt`. -/
def markAsRead (st : Store) (s r now : Nat) : Store :=
  st.map (readOne s r now)

/-- Embedding of `Message.getUnreadCount(userId)`: non-deleted messages to `userId` with
`status != 'read'`. -/
def getUnreadCount (st : Store) (u : Nat) : Nat :=
  (st.filter (fun m => m.receiver == u && !(m.status == Status.read) && !m.isDeleted)).length

/-- Per-document effect of the delayed auto-delivery timer firing for
document `i`. The closure's guard `if (this.status === 'sent')` reads the
in-memory document snapshot captured at creation — the `updateMany` status
transitions never mutate that instance — so for a document created as
`sent` the guard still sees `'sent'` when the timer fires, and `save()`
writes `status='delivered'`, `deliveredAt` to the stored document
regardless of its CURRENT stored status (a stale read-modify-write). -/
def autoDeliverOne (i now : Nat) (m : Message) : Message :=
  if m.id = i then
    { m with status := Status.delivered, deliveredAt := some now }
  else m

/-- The timer callback installed by the `pre('save')` hook on a new `sent`
document: one second later it re-saves the stale snapshot as `delivered`,
even if a bulk update has meanwhile advanced the stored status. -/
def autoDeliver (st : Store) (i now : Nat) : Store :=
  st.map (autoDeliverOne i now)

/-! ### Document creation (schema defaults + validation) -/

/-- Embedding of `Message.create(...)`: the schema trims `content`, requires it nonempty,
enforces `maxlength: 1000`, and fills the defaults
`status='sent'`, `isDeleted=false`, null timestamps; `_id` is fresh. -/
def createMessage (st : Store) (sender receiver : Nat) (content : String)
    (mt : MessageType) (replyTo : Option Nat) (now : Nat) :
    Except Err Message × Store :=
  let trimmed := jsTrim content
  if trimmed = "" then (Except.error Err.validation, st)
  else if 1000 < utf16Length trimmed then (Except.error Err.validation, st)
  else
    let m : Message :=
      { id := nextId st, sender := sender, receiver := receiver,
        content := trimmed, messageType := mt, status := Status.sent,
        deliveredAt := none, readAt := none, editedAt := none,
        isDeleted := false, deletedAt := none, replyTo := replyTo,
        createdAt := now }
    (Except.ok m, st ++ [m])

/-! ### Controllers (`src/controllers/messageController.js`) -/

/-- Embedding of `sendMessage`: receiver existence check against the user directory,
emoji auto-detection when `messageType` is falsy, then `Message.create`
with the trimmed content (`content.trim()`). -/
def sendMessage (users : List Nat) (st : Store) (senderId receiverId : Nat)
    (content : String) (messageType : Option MessageType) (replyTo : Option Nat)
    (now : Nat) : Except Err Message × Store :=
  if receiverId ∉ users then (Except.error Err.notFound, st)
  else
    let finalType :=
      match messageType with
      | some t => t
      | none => detectMessageType content
    createMessage st senderId receiverId content finalType replyTo now

/-- Embedding of `deleteMessage` (soft delete): `findById`, `Forbidden` unless the
requester is the sender, then `isDeleted=true`, `deletedAt=new Date()`
and save. There is no already-deleted guard. -/
def deleteMessage (st : Store) (messageId requesterId now : Nat) :
    Except Err Unit × Store :=
  match findById st messageId with
  | none => (Except.error Err.notFound, st)
  | some m =>
    if m.sender ≠ requesterId then (Except.error Err.forbidden, st)
    else
      (Except.ok (),
       st.map (fun x =>
         if x.id = messageId then { x with isDeleted := true, deletedAt := some now }
         else x))

/-- Embedding of `editMessage`: `findById`, `Forbidden` unless requester is the sender,
`InvalidState` when `createdAt < Date.now() - 24*60*60*1000` (strict),
otherwise update `content` (trimmed), `editedAt`, and re-run the emoji
auto-detection. All guards run before any mutation. -/
def editMessage (st : Store) (messageId requesterId : Nat) (content : String)
    (now : Nat) : Except Err Unit × Store :=
  match findById st messageId with
  | none => (Except.error Err.notFound, st)
  | some m =>
    if m.sender ≠ requesterId then (Except.error Err.forbidden, st)
    else if m.createdAt + 86400000 < now then (Except.error Err.invalidState, st)
    else
      (Except.ok (),
       st.map (fun x =>
         if x.id = messageId then
           { x with content := jsTrim content, editedAt := some now,
                    messageType := detectMessageType content }
         else x))

/-- Embedding of `getMessage`: `findById` (soft-deleted documents included), `Forbidden`
unless the requester is a participant. -/
def getMessage (st : Store) (messageId requesterId : Nat) : Except Err Message :=
  match findById st messageId with
  | none => Except.error Err.notFound
  | some m =>
    if m.sender = requesterId ∨ m.receiver = requesterId then Except.ok m
    else Except.error Err.forbidden

/-- Embedding of `forwardMessage`: `findById` on the original (no `isDeleted` check),
`Forbidden` unless the requester is sender or receiver of the original,
receiver existence check, then `Message.create` with the original's
`content` and `messageType` and the requester as sender. -/
def forwardMessage (users : List Nat) (st : Store)
    (messageId requesterId receiverId now : Nat) : Except Err Message × Store :=
  match findById st messageId with
  | none => (Except.error Err.notFound, st)
  | some orig =>
    if orig.sender ≠ requesterId ∧ orig.receiver ≠ requesterId then
      (Except.error Err.forbidden, st)
    else if receiverId ∉ users then (Except.error Err.notFound, st)
    else createMessage st requesterId receiverId orig.content orig.messageType none now

/-! ### Search (`searchMessages` + the `RegExp` it builds)

`searchMessages` builds `new RegExp(query.trim(), 'i')` — the query is NOT
passed through `escapeRegex`, so it is interpreted as a regular expression.
The embedding models the regex dialect actually reachable from short chat
queries: literal characters plus the `.` wildcard (any single character);
the `'i'` flag is modelled by lower-casing both sides. -/

/-- One token of the compiled search pattern. -/
inductive RTok where
  | lit (c : Char)
  | dot
deriving DecidableEq, Repr

/-- JavaScript regular-expression syntax characters: caret, dollar,
backslash, dot, star, plus, question mark, parentheses, square brackets,
vertical bar, and the curly braces (given by code point, 0x7B and 0x7D).
Of these only `.` is modelled by the matcher below. -/
def isRegexMeta (c : Char) : Bool :=
  c == '^' || c == '$' || c == '\\' || c == '.' || c == '*' || c == '+' ||
  c == '?' || c == '(' || c == ')' || c == '[' || c == ']' || c == '|' ||
  c.toNat == 0x7B || c.toNat == 0x7D

/-- Compile the (trimmed) query the way `new RegExp(query, 'i')` reads it,
for the FRAGMENT of the regex language this development models: literal
characters (case-folded for the `'i'` flag) and the `.` any-character
wildcard. The remaining syntax characters (`isRegexMeta` minus the dot:
quantifiers, groups, classes, anchors, alternation, escapes) are NOT
modelled — this function wrongly reads them as literals — so every theorem
below about match semantics restricts its query to the modelled fragment:
either fully metacharacter-free, or literals plus `.`. -/
def parsePattern (q : String) : List RTok :=
  q.data.map (fun c => if c = '.' then RTok.dot else RTok.lit c.toLower)

/-- One pattern token against one subject character (subject case-folded
for the `'i'` flag). The `.` wildcard matches any character except a JS
LineTerminator (`\n`, `\r`, U+2028, U+2029) — the `s` flag is not set. -/
def tokMatches : RTok → Char → Bool
  | RTok.lit c, d => c == d.toLower
  | RTok.dot, d =>
    !(d == '\n' || d == '\r' || d.toNat == 0x2028 || d.toNat == 0x2029)

/-- Match the whole pattern at the head of the subject. -/
def matchHere : List RTok → List Char → Bool
  | [], _ => true
  | _ :: _, [] => false
  | t :: ts, c :: cs => tokMatches t c && matchHere ts cs

/-- Unanchored regex search: the pattern matches at some position. -/
def regexSearch (p : List RTok) : List Char → Bool
  | [] => matchHere p []
  | c :: cs => matchHere p (c :: cs) || regexSearch p cs

/-- Embedding of `searchRegex.test(content)`. -/
def regexTest (q : String) (content : String) : Bool :=
  regexSearch (parsePattern q) content.data

/-- Embedding of `searchMessages`: 400 when the trimmed query is shorter than 2
characters, 404 when the peer does not exist, otherwise the pair's
non-deleted messages whose `content` matches the regex, newest first,
paginated. The matcher models the literal-plus-dot regex fragment (see
`parsePattern`); theorems about match semantics stay inside that fragment. -/
def searchMessages (users : List Nat) (st : Store) (meId peerId : Nat)
    (query : String) (page limit : Nat) : Except Err (List Message) :=
  if utf16Length (jsTrim query) < 2 then Except.error Err.validation
  else if peerId ∉ users then Except.error Err.notFound
  else
    Except.ok (pageSlice page limit (sortDesc
      (st.filter (fun m =>
        inPair meId peerId m && regexTest (jsTrim query) m.content && !m.isDeleted))))

/-! ### Conversation aggregation (`Message.getLatestConversations`) -/

/-- One row of the aggregation result. -/
structure ConversationSummary where
  participantId : Nat
  lastMessage : Message
  unreadCount : Nat
deriving DecidableEq, Repr

/-- The `$group` key: the other participant of a message involving `u`. -/
def otherParty (u : Nat) (m : Message) : Nat :=
  if m.sender = u then m.receiver else m.sender

/-- The `$group` stage for one key: `lastMessage: {$first: '$$ROOT'}` over
the already-sorted stream, plus the conditional `unreadCount` sum. -/
def groupSummary (u : Nat) (sorted : List Message) (k : Nat) :
    Option ConversationSummary :=
  match (sorted.filter (fun m => otherParty u m == k)).head? with
  | none => none
  | some lm =>
    some { participantId := k, lastMessage := lm,
           unreadCount := ((sorted.filter (fun m => otherParty u m == k)).filter
             (fun m => m.receiver == u && !(m.status == Status.read))).length }

/-- Embedding of `Message.getLatestConversations(userId, limit)`: `$match` non-deleted
messages involving the user, `$sort` newest first, `$group` by the other
participant taking the first (latest) message and counting unread ones,
`$lookup`+`$unwind` against the user collection (dropping groups whose
participant no longer exists), `$sort` by last-message time, `$limit`. -/
def getLatestConversations (users : List Nat) (st : Store) (u limit : Nat) :
    List ConversationSummary :=
  let sorted := sortDesc (st.filter (fun m => (m.sender == u || m.receiver == u) && !m.isDeleted))
  let keys := (sorted.map (otherParty u)).dedup
  let found := (keys.filterMap (groupSummary u sorted)).filter
    (fun s => users.contains s.participantId)
  (sortKeyDesc (fun s => s.lastMessage.createdAt) found).take limit

/-! ### Operation language for the lifecycle claims -/

/-- The operations of claim C1: message creation (through `sendMessage`),
the two bulk status transitions, and the timer callback installed by the
`pre('save')` hook. Each carries the wall-clock time at which it runs. -/
inductive Op where
  | create (sender receiver : Nat) (content : String)
      (mt : Option MessageType) (replyTo : Option Nat) (t : Nat)
  | markDelivered (s r t : Nat)
  | markRead (s r t : Nat)
  | autoDeliver (id t : Nat)

/-- Effect of one operation on the store (a failed create leaves it as is). -/
def applyOp (users : List Nat) (st : Store) : Op → Store
  | Op.create s r c mt rt t => (sendMessage users st s r c mt rt t).2
  | Op.markDelivered s r t => markAsDelivered st s r t
  | Op.markRead s r t => markAsRead st s r t
  | Op.autoDeliver i t => autoDeliver st i t

/-- Run a sequence of operations. -/
def runOps (users : List Nat) (st : Store) : List Op → Store
  | [] => st
  | op :: ops => runOps users (applyOp users st op) ops

/-! ### Spec-side predicates (for refutation of refinement claims)

These two definitions follow the SPEC's wording, not the code; they exist
only to be compared against the code-derived definitions above. -/

/-- Spec wording for C3: the content `consists entirely of emoji
characters`. -/
def specEmojiOnly (s : String) : Bool :=
  s.data.all isEmojiChar

/-- Literal (non-regex) substring containment over character lists. -/
def containsSub (q : List Char) : List Char → Bool
  | [] => q.isEmpty
  | c :: cs => q.isPrefixOf (c :: cs) || containsSub q cs

/-- Spec wording for C8: the content `contains the trimmed query as a
case-insensitive literal substring`. -/
def specLiteralMatchCI (q s : String) : Bool :=
  containsSub (q.data.map Char.toLower) (s.data.map Char.toLower)

/-! ### Auxiliary notions used by the statements -/

/-- The document `forwardMessage` persists for original `m`. -/
def forwardedDoc (st : Store) (requester receiverId : Nat) (m : Message)
    (now : Nat) : Message :=
  { id := nextId st, sender := requester, receiver := receiverId,
    content := m.content, messageType := m.messageType, status := Status.sent,
    deliveredAt := none, readAt := none, editedAt := none,
    isDeleted := false, deletedAt := none, replyTo := none, createdAt := now }

/-- A concrete sent message used by the witnesses. -/
def msgSent : Message :=
  { id := 1, sender := 1, receiver := 2, content := "hello",
    messageType := MessageType.text, status := Status.sent,
    deliveredAt := none, readAt := none, editedAt := none,
    isDeleted := false, deletedAt := none, replyTo := none, createdAt := 10 }

/-- A concrete already-soft-deleted message (deletedAt = 5). -/
def msgDeleted : Message :=
  { id := 1, sender := 1, receiver := 2, content := "hello",
    messageType := MessageType.text, status := Status.read,
    deliveredAt := none, readAt := none, editedAt := none,
    isDeleted := true, deletedAt := some 5, replyTo := none, createdAt := 0 }

/-- A concrete message with content `"abc"` used by the search claims. -/
def msgAbc : Message :=
  { id := 1, sender := 1, receiver := 2, content := "abc",
    messageType := MessageType.text, status := Status.sent,
    deliveredAt := none, readAt := none, editedAt := none,
    isDeleted := false, deletedAt := none, replyTo := none, createdAt := 3 }

/-! ## Helper lemmas -/

theorem mem_insertKeyDesc {key : α → Nat} {x m : α} {l : List α} :
    x ∈ insertKeyDesc key m l ↔ x = m ∨ x ∈ l := by
  induction l with
  | nil => simp [insertKeyDesc]
  | cons n ns ih =>
    by_cases h : key n < key m
    · simp [insertKeyDesc, h]
    · simp [insertKeyDesc, h, ih]
      tauto

theorem mem_sortKeyDesc {key : α → Nat} {x : α} {l : List α} :
    x ∈ sortKeyDesc key l ↔ x ∈ l := by
  induction l with
  | nil => simp [sortKeyDesc]
  | cons m ms ih => simp [sortKeyDesc, mem_insertKeyDesc, ih]

theorem mem_of_mem_pageSlice {x : Message} {l : List Message} {page limit : Nat}
    (h : x ∈ pageSlice page limit l) : x ∈ l := by
  unfold pageSlice at h
  exact List.mem_of_mem_drop (List.mem_of_mem_take h)

/-- Elements surviving a prior `getConversation`-style pipeline all satisfy
the filter. -/
theorem pred_of_mem_pipeline {x : Message} {p : Message → Bool} {st : Store}
    {page limit : Nat} (h : x ∈ pageSlice page limit (sortDesc (st.filter p))) :
    p x = true := by
  have hx : x ∈ sortDesc (st.filter p) := mem_of_mem_pageSlice h
  have hx2 : x ∈ st.filter p := by
    unfold sortDesc at hx
    exact mem_sortKeyDesc.mp hx
  exact List.of_mem_filter hx2

/-- Lemma: `findById` finds exactly the member with that id when ids are unique. -/
theorem findById_eq_some {st : Store} {m : Message}
    (hnodup : (st.map Message.id).Nodup) (hm : m ∈ st) :
    findById st m.id = some m := by
  induction st with
  | nil => cases hm
  | cons x xs ih =>
    simp only [List.map_cons, List.nodup_cons] at hnodup
    rcases List.mem_cons.mp hm with rfl | hmem
    · simp [findById, List.find?]
    · have hne : x.id ≠ m.id := by
        intro h2
        exact hnodup.1 (h2 ▸ List.mem_map_of_mem Message.id hmem)
      have : findById xs m.id = some m := ih hnodup.2 hmem
      simpa [findById, List.find?, (by simpa using hne : (x.id == m.id) = false)]
        using this

/-- Distinct members of an id-nodup store have distinct ids. -/
theorem id_inj_of_nodup {st : Store} {x y : Message}
    (hnodup : (st.map Message.id).Nodup) (hx : x ∈ st) (hy : y ∈ st)
    (hid : x.id = y.id) : x = y :=
  List.inj_on_of_nodup_map hnodup hx hy hid

/-- Erasing a member that fails the predicate does not change the filtered
length. -/
theorem filter_length_erase_of_neg {p : Message → Bool} {st : Store}
    {m : Message} (hm : m ∈ st) (hp : p m = false) :
    ((st.erase m).filter p).length = (st.filter p).length := by
  induction st with
  | nil => cases hm
  | cons x xs ih =>
    rw [List.erase_cons]
    by_cases hxm : x = m
    · subst hxm
      simp [hp, List.filter_cons]
    · have hmem : m ∈ xs := by
        rcases List.mem_cons.mp hm with h | h
        · exact absurd h.symm hxm
        · exact h
      have hbeq : (x == m) = false := by simpa using hxm
      rw [hbeq]
      simp only [Bool.false_eq_true, if_false, List.filter_cons]
      by_cases hpx : p x = true
      · simp [hpx, ih hmem]
      · simp [Bool.of_not_eq_true hpx, ih hmem]

/-- Every id in the store is strictly below `nextId`. -/
theorem lt_nextId {st : Store} {m : Message} (hm : m ∈ st) :
    m.id < nextId st := by
  have h : ∀ (l : List Nat) (i : Nat), i ∈ l → i ≤ l.foldr max 0 := by
    intro l
    induction l with
    | nil => intro i hi; cases hi
    | cons a as ih =>
      intro i hi
      rcases List.mem_cons.mp hi with rfl | hi
      · exact Nat.le_max_left _ _
      · exact le_trans (ih i hi) (Nat.le_max_right _ _)
  have := h (st.map Message.id) m.id (List.mem_map_of_mem Message.id hm)
  unfold nextId
  omega

/-- The freshly assigned id is not in the store. -/
theorem nextId_not_mem {st : Store} : nextId st ∉ st.map Message.id := by
  intro h
  rcases List.mem_map.mp h with ⟨m, hm, hid⟩
  have := lt_nextId hm
  omega

/-! ### Per-message lemmas about the status transitions -/

theorem inPair_comm (a b : Nat) (m : Message) : inPair a b m = inPair b a m := by
  unfold inPair
  rw [Bool.or_comm]

theorem readOne_deliverOne_proj (s r t1 t2 : Nat) (m : Message) :
    ((readOne s r t2 (deliverOne s r t1 m)).status,
     (readOne s r t2 (deliverOne s r t1 m)).readAt) =
    ((readOne s r t2 m).status, (readOne s r t2 m).readAt) := by
  obtain ⟨i, sender, receiver, c, mt, status, dAt, rAt, eAt, isDel, delAt, rTo, cAt⟩ := m
  by_cases hp : sender = s ∧ receiver = r
  · obtain ⟨rfl, rfl⟩ := hp
    cases status <;> simp [readOne, deliverOne]
  · have h1 : ¬(sender = s ∧ receiver = r ∧
        (status = Status.sent ∨ status = Status.delivered)) :=
      fun h => hp ⟨h.1, h.2.1⟩
    have h2 : ¬(sender = s ∧ receiver = r ∧ status = Status.sent) :=
      fun h => hp ⟨h.1, h.2.1⟩
    simp only [deliverOne, readOne]
    rw [if_neg h2, if_neg h1]

theorem readOne_readOne (s r t1 t2 : Nat) (m : Message) :
    readOne s r t2 (readOne s r t1 m) = readOne s r t1 m := by
  obtain ⟨i, sender, receiver, c, mt, status, dAt, rAt, eAt, isDel, delAt, rTo, cAt⟩ := m
  by_cases hp : sender = s ∧ receiver = r
  · obtain ⟨rfl, rfl⟩ := hp
    cases status <;> simp [readOne]
  · have h1 : ¬(sender = s ∧ receiver = r ∧
        (status = Status.sent ∨ status = Status.delivered)) :=
      fun h => hp ⟨h.1, h.2.1⟩
    simp only [readOne]
    rw [if_neg h1, if_neg h1]

/-! ## Claims -/

/-- C7: `getConversation(A,B,page,limit)` and `getConversation(B,A,page,limit)`
return the same sequence of messages, identical in content and order. -/
theorem C7_getConversation_symmetric (st : Store) (a b page limit : Nat) :
    getConversation st a b page limit = getConversation st b a page limit := by
  unfold getConversation
  have hfilter : st.filter (fun m => inPair a b m && !m.isDeleted) =
      st.filter (fun m => inPair b a m && !m.isDeleted) := by
    apply List.filter_congr
    intro m _
    rw [inPair_comm]
  rw [hfilter]

/-- C2: `markAsDelivered` then `markAsRead` on the same pair leaves the same
statuses and `readAt` values as `markAsRead` alone, and `markAsRead` twice is
the same store as `markAsRead` once (the second call changes nothing). -/
theorem C2_markAsRead_absorption (st : Store) (s r t1 t2 : Nat) :
    ((markAsRead (markAsDelivered st s r t1) s r t2).map
        (fun m => (m.status, m.readAt)) =
      (markAsRead st s r t2).map (fun m => (m.status, m.readAt))) ∧
    markAsRead (markAsRead st s r t1) s r t2 = markAsRead st s r t1 := by
  constructor
  · unfold markAsRead markAsDelivered
    simp only [List.map_map]
    apply List.map_eq_map_iff.mpr
    intro m _
    simp only [Function.comp]
    exact readOne_deliverOne_proj s r t1 t2 m
  · unfold markAsRead
    simp only [List.map_map]
    apply List.map_eq_map_iff.mpr
    intro m _
    simp only [Function.comp]
    exact readOne_readOne s r t1 t2 m

/-- C1: failing run for the monotonicity claim. Create at t=0 (which
installs the one-second auto-delivery timer for the new document),
markAsRead at t=500 — the stored status is now `read` — then the timer
fires at t=1000: its guard reads the stale in-memory snapshot (still
`'sent'`) and `save()` writes `delivered`, regressing the stored status
from `read` back to `delivered`. -/
theorem C1_auto_delivery_regression :
    ((runOps [1, 2] [] [Op.create 1 2 "hello" none none 0,
        Op.markRead 1 2 500]).map Message.status = [Status.read]) ∧
    ((runOps [1, 2] [] [Op.create 1 2 "hello" none none 0,
        Op.markRead 1 2 500, Op.autoDeliver 1 1000]).map Message.status =
      [Status.delivered]) :=
  ⟨rfl, rfl⟩

/-- C5: editing a message more than 24 hours old fails with `InvalidState`
and leaves the store (hence the message's `content`, `messageType`,
`editedAt`) exactly as it was. -/
theorem C5_edit_window_invalidState (st : Store) (m : Message)
    (requester : Nat) (content : String) (now : Nat)
    (hnodup : (st.map Message.id).Nodup) (hm : m ∈ st)
    (hreq : requester = m.sender) (hold : m.createdAt + 86400000 < now) :
    editMessage st m.id requester content now = (Except.error Err.invalidState, st) := by
  subst hreq
  unfold editMessage
  rw [findById_eq_some hnodup hm]
  dsimp only
  rw [if_neg (fun hne => hne rfl), if_pos hold]

/-- C5 witness: a message created at t=10, edited at t=86400011. -/
theorem C5_edit_window_invalidState_witness :
    editMessage [msgSent] msgSent.id 1 "new text" 86400011 =
      (Except.error Err.invalidState, [msgSent]) :=
  C5_edit_window_invalidState [msgSent] msgSent 1 "new text" 86400011
    (by decide) (by decide) rfl (by decide)

/-- C6 counterexample: a second `softDelete` at time 10 of a message deleted
at time 5 does NOT leave the message unchanged — it re-stamps `deletedAt`
from `some 5` to `some 10`. -/
theorem C6_counterexample :
    (deleteMessage [msgDeleted] 1 1 10).1 = Except.ok () ∧
    (deleteMessage [msgDeleted] 1 1 10).2 ≠ [msgDeleted] ∧
    (deleteMessage [msgDeleted] 1 1 10).2 =
      [{ msgDeleted with deletedAt := some 10 }] :=
  ⟨rfl, by decide, rfl⟩

/-- Setting `isDeleted := true` on an already-deleted message changes
nothing beyond `deletedAt`. -/
theorem set_isDeleted_absorbed (m : Message) (hdel : m.isDeleted = true)
    (v : Option Nat) :
    ({ m with isDeleted := true, deletedAt := v } : Message) =
      { m with deletedAt := v } := by
  obtain ⟨i, s, r, c, mt, status, dAt, rAt, eAt, isDel, delAt, rTo, cAt⟩ := m
  subst hdel
  rfl

/-- C6 amended: a second `softDelete` on an already-deleted message by its
sender succeeds and leaves every field of every message unchanged except
that the target's `deletedAt` is re-stamped to the time of the second call
(so `deletedAt` is not written exactly once). -/
theorem C6_softDelete_restamps (st : Store) (m : Message) (requester now : Nat)
    (hnodup : (st.map Message.id).Nodup) (hm : m ∈ st)
    (hdel : m.isDeleted = true) (hreq : requester = m.sender) :
    (deleteMessage st m.id requester now).1 = Except.ok () ∧
    (deleteMessage st m.id requester now).2 =
      st.map (fun x => if x = m then { m with deletedAt := some now } else x) := by
  subst hreq
  unfold deleteMessage
  rw [findById_eq_some hnodup hm]
  dsimp only
  rw [if_neg (fun hne => hne rfl)]
  refine ⟨rfl, ?_⟩
  apply List.map_eq_map_iff.mpr
  intro x hx
  by_cases hxm : x = m
  · subst hxm
    rw [if_pos rfl, if_pos rfl]
    exact set_isDeleted_absorbed x hdel (some now)
  · have hid : ¬(x.id = m.id) := fun h => hxm (id_inj_of_nodup hnodup hx hm h)
    rw [if_neg hid, if_neg hxm]

/-- C6 amended witness: the concrete double delete. -/
theorem C6_softDelete_restamps_witness :
    (deleteMessage [msgDeleted] msgDeleted.id 1 10).1 = Except.ok () ∧
    (deleteMessage [msgDeleted] msgDeleted.id 1 10).2 =
      [msgDeleted].map (fun x =>
        if x = msgDeleted then { msgDeleted with deletedAt := some 10 } else x) :=
  C6_softDelete_restamps [msgDeleted] msgDeleted 1 10 (by decide) (by decide) rfl rfl

/-- The last message of every reported conversation group is drawn from the
non-deleted stream. -/
theorem groupSummary_lastMessage_not_deleted {u : Nat} {sorted : List Message}
    {k : Nat} {s : ConversationSummary}
    (hall : ∀ x ∈ sorted, x.isDeleted = false)
    (hs : groupSummary u sorted k = some s) : s.lastMessage.isDeleted = false := by
  unfold groupSummary at hs
  cases hh : (sorted.filter (fun m => otherParty u m == k)).head? with
  | none => rw [hh] at hs; cases hs
  | some lm =>
    rw [hh] at hs
    have hmem : lm ∈ sorted :=
      List.mem_of_mem_filter (List.mem_of_mem_head? hh)
    have : s.lastMessage = lm := by
      cases hs
      rfl
    rw [this]
    exact hall lm hmem

/-- C4: a soft-deleted message never appears in `getConversation`, `search`,
or `getLatestConversations`, is never counted by `getUnreadCount`, yet is
still retrievable by id (with `isDeleted = true`) by a participant. -/
theorem C4_soft_deleted_hidden_but_kept (users : List Nat) (st : Store)
    (m : Message) (hnodup : (st.map Message.id).Nodup) (hm : m ∈ st)
    (hdel : m.isDeleted = true) :
    (∀ a b page limit, m ∉ getConversation st a b page limit) ∧
    (∀ meId peerId q page limit res,
      searchMessages users st meId peerId q page limit = Except.ok res →
        m ∉ res) ∧
    (∀ u limit s, s ∈ getLatestConversations users st u limit →
      s.lastMessage ≠ m) ∧
    (∀ u, getUnreadCount (st.erase m) u = getUnreadCount st u) ∧
    (∀ requester, requester = m.sender ∨ requester = m.receiver →
      getMessage st m.id requester = Except.ok m) := by
  refine ⟨?_, ?_, ?_, ?_, ?_⟩
  · intro a b page limit hmem
    unfold getConversation at hmem
    have := pred_of_mem_pipeline hmem
    rw [hdel] at this
    simp at this
  · intro meId peerId q page limit res hres hmem
    unfold searchMessages at hres
    split_ifs at hres
    all_goals cases hres
    have := pred_of_mem_pipeline hmem
    rw [hdel] at this
    simp at this
  · intro u limit s hs
    unfold getLatestConversations at hs
    dsimp only at hs
    have h1 := mem_sortKeyDesc.mp (List.mem_of_mem_take hs)
    have h2 := List.mem_of_mem_filter h1
    obtain ⟨k, hk, hgs⟩ := List.mem_filterMap.mp h2
    have hall : ∀ x ∈ sortDesc (st.filter (fun y =>
        (y.sender == u || y.receiver == u) && !y.isDeleted)), x.isDeleted = false := by
      intro x hx
      unfold sortDesc at hx
      have hx2 := List.of_mem_filter (mem_sortKeyDesc.mp hx)
      simp at hx2
      exact hx2.2
    have hnd := groupSummary_lastMessage_not_deleted hall hgs
    intro heq
    rw [heq, hdel] at hnd
    cases hnd
  · intro u
    apply filter_length_erase_of_neg hm
    rw [hdel]
    simp
  · intro requester hpart
    unfold getMessage
    rw [findById_eq_some hnodup hm]
    dsimp only
    rcases hpart with h | h
    · rw [if_pos (Or.inl h.symm)]
    · rw [if_pos (Or.inr h.symm)]

/-- C4 witness: concrete instances of the hiding and the by-id retrieval. -/
theorem C4_soft_deleted_hidden_but_kept_witness :
    msgDeleted ∉ getConversation [msgDeleted] 1 2 1 50 ∧
    getUnreadCount ([msgDeleted].erase msgDeleted) 2 = getUnreadCount [msgDeleted] 2 ∧
    getMessage [msgDeleted] msgDeleted.id 1 = Except.ok msgDeleted := by
  obtain ⟨h1, h2, h3, h4, h5⟩ :=
    C4_soft_deleted_hidden_but_kept [1, 2] [msgDeleted] msgDeleted
      (by decide) (by decide) rfl
  exact ⟨h1 1 2 1 50, h4 2, h5 1 (Or.inl rfl)⟩

/-- C3 counterexample: `"Hi 😀"` (mixed text and emoji, trimmed length ≤ 10)
is stored with `messageType = emoji` although it does not consist entirely
of emoji characters — refuting the claimed iff and the claimed
classification of `"Hi 😀"` as text. -/
theorem C3_counterexample :
    (sendMessage [1, 2] [] 1 2 "Hi 😀" none none 100).1 =
      Except.ok { id := 1, sender := 1, receiver := 2, content := "Hi 😀",
                  messageType := MessageType.emoji, status := Status.sent,
                  deliveredAt := none, readAt := none, editedAt := none,
                  isDeleted := false, deletedAt := none, replyTo := none,
                  createdAt := 100 } ∧
    specEmojiOnly (jsTrim "Hi 😀") = false :=
  ⟨rfl, rfl⟩

/-- C3 amended: when `messageType` is omitted and the content is valid, the
stored type is `emoji` iff the content CONTAINS at least one emoji character
(not: consists entirely of emoji) and the trimmed content is at most 10
UTF-16 units long; otherwise `text`. -/
theorem C3_autodetect_contains (users : List Nat) (st : Store)
    (sender receiver : Nat) (content : String) (replyTo : Option Nat)
    (now : Nat) (hrecv : receiver ∈ users) (hne : jsTrim content ≠ "")
    (hlen : utf16Length (jsTrim content) ≤ 1000) :
    (sendMessage users st sender receiver content none replyTo now).1.map
        Message.messageType =
      Except.ok (if containsEmoji content = true ∧
          utf16Length (jsTrim content) ≤ 10
        then MessageType.emoji else MessageType.text) := by
  unfold sendMessage createMessage
  rw [if_neg (fun hn => hn hrecv)]
  dsimp only
  rw [if_neg hne, if_neg (by omega)]
  unfold detectMessageType
  rfl

/-- C3 witness: the amended rule evaluated on `"Hi 😀"`. -/
theorem C3_autodetect_contains_witness :
    (sendMessage [1, 2] [] 1 2 "Hi 😀" none none 100).1.map
        Message.messageType =
      Except.ok (if containsEmoji "Hi 😀" = true ∧
          utf16Length (jsTrim "Hi 😀") ≤ 10
        then MessageType.emoji else MessageType.text) :=
  C3_autodetect_contains [1, 2] [] 1 2 "Hi 😀" none 100
    (by decide) (by decide) (by decide)

/-! ### Regex-vs-literal lemmas for the search claim -/

theorem matchHere_lit (qcs scs : List Char) :
    matchHere (qcs.map (fun c => RTok.lit c.toLower)) scs =
      List.isPrefixOf (qcs.map Char.toLower) (scs.map Char.toLower) := by
  induction qcs generalizing scs with
  | nil => cases scs <;> simp [matchHere, List.isPrefixOf]
  | cons a as ih =>
    cases scs with
    | nil => simp [matchHere, List.isPrefixOf]
    | cons b bs => simp [matchHere, List.isPrefixOf, tokMatches, ih]

theorem regexSearch_lit (qcs scs : List Char) :
    regexSearch (qcs.map (fun c => RTok.lit c.toLower)) scs =
      containsSub (qcs.map Char.toLower) (scs.map Char.toLower) := by
  induction scs with
  | nil => cases qcs <;> simp [regexSearch, containsSub, matchHere, List.isEmpty]
  | cons b bs ih => simp [regexSearch, containsSub, matchHere_lit, ih]

theorem parsePattern_no_dot (q : String)
    (hnd : RTok.dot ∉ parsePattern q) :
    parsePattern q = q.data.map (fun c => RTok.lit c.toLower) := by
  unfold parsePattern at hnd ⊢
  apply List.map_eq_map_iff.mpr
  intro c hc
  by_cases h : c = '.'
  · exact absurd (List.mem_map.mpr ⟨c, hc, by simp [h]⟩) hnd
  · simp [h]

/-- For a metacharacter-free query the regex test IS the case-insensitive
literal substring test. -/
theorem regexTest_no_dot (q s : String) (hnd : RTok.dot ∉ parsePattern q) :
    regexTest q s = specLiteralMatchCI q s := by
  unfold regexTest specLiteralMatchCI
  rw [parsePattern_no_dot q hnd, regexSearch_lit]

/-- C8 counterexample: the query `"a.c"` matches the stored content `"abc"`
(the unescaped `.` acts as a regex wildcard) although `"abc"` does not
contain `"a.c"` as a literal substring — refuting the claimed literal
matching for metacharacter queries. -/
theorem C8_counterexample :
    searchMessages [1, 2] [msgAbc] 1 2 "a.c" 1 20 = Except.ok [msgAbc] ∧
    specLiteralMatchCI (jsTrim "a.c") msgAbc.content = false :=
  ⟨rfl, rfl⟩

/-- C8 amended: a trimmed query shorter than 2 characters fails with a
validation error; otherwise the trimmed query is interpreted as a
case-insensitive REGULAR EXPRESSION over the pair's non-deleted messages
(newest first, paginated) — which coincides with literal substring matching
when the query contains no regex metacharacter at all (none of
`^ $ \ . * + ? ( ) [ ] { } |`). -/
theorem C8_search_is_regex (users : List Nat) (st : Store) (meId peerId : Nat)
    (q : String) (page limit : Nat) :
    (utf16Length (jsTrim q) < 2 →
      searchMessages users st meId peerId q page limit =
        Except.error Err.validation) ∧
    (2 ≤ utf16Length (jsTrim q) → peerId ∈ users →
      (∀ c ∈ (jsTrim q).data, isRegexMeta c = false) →
      searchMessages users st meId peerId q page limit =
        Except.ok (pageSlice page limit (sortDesc (st.filter (fun m =>
          inPair meId peerId m && specLiteralMatchCI (jsTrim q) m.content &&
            !m.isDeleted))))) := by
  constructor
  · intro hshort
    unfold searchMessages
    rw [if_pos hshort]
  · intro hlen hpeer hmeta
    have hnd : RTok.dot ∉ parsePattern (jsTrim q) := by
      intro hdot
      unfold parsePattern at hdot
      rcases List.mem_map.mp hdot with ⟨c, hc, heq⟩
      by_cases hcd : c = '.'
      · have := hmeta c hc
        rw [hcd] at this
        simp [isRegexMeta] at this
      · rw [if_neg hcd] at heq
        cases heq
    unfold searchMessages
    rw [if_neg (by omega), if_neg (fun hn => hn hpeer)]
    have hfilter : st.filter (fun m =>
        inPair meId peerId m && regexTest (jsTrim q) m.content && !m.isDeleted) =
      st.filter (fun m =>
        inPair meId peerId m && specLiteralMatchCI (jsTrim q) m.content &&
          !m.isDeleted) := by
      apply List.filter_congr
      intro m _
      rw [regexTest_no_dot _ _ hnd]
    rw [hfilter]

/-- C8 witness: a metacharacter-free query behaves literally. -/
theorem C8_search_is_regex_witness :
    searchMessages [1, 2] [msgAbc] 1 2 "ab" 1 20 =
      Except.ok (pageSlice 1 20 (sortDesc ([msgAbc].filter (fun m =>
        inPair 1 2 m && specLiteralMatchCI (jsTrim "ab") m.content &&
          !m.isDeleted)))) :=
  (C8_search_is_regex [1, 2] [msgAbc] 1 2 "ab" 1 20).2
    (by decide) (by decide) (by decide)

/-- Shared success computation of `forwardMessage`: a valid, accessible
original and an existing receiver yield exactly the forwarded document
appended to the store — no `isDeleted` guard is consulted on the way. -/
theorem forwardMessage_eq (users : List Nat) (st : Store) (m : Message)
    (requester receiverId now : Nat)
    (hnodup : (st.map Message.id).Nodup) (hm : m ∈ st)
    (hacc : requester = m.sender ∨ requester = m.receiver)
    (hrecv : receiverId ∈ users)
    (htrim : jsTrim m.content = m.content) (hne : m.content ≠ "")
    (hlen : utf16Length m.content ≤ 1000) :
    forwardMessage users st m.id requester receiverId now =
      (Except.ok (forwardedDoc st requester receiverId m now),
       st ++ [forwardedDoc st requester receiverId m now]) := by
  unfold forwardMessage
  rw [findById_eq_some hnodup hm]
  dsimp only
  have hguard : ¬(m.sender ≠ requester ∧ m.receiver ≠ requester) := by
    rcases hacc with h | h
    · exact fun hc => hc.1 h.symm
    · exact fun hc => hc.2 h.symm
  rw [if_neg hguard, if_neg (fun hn => hn hrecv)]
  unfold createMessage
  simp only [htrim]
  rw [if_neg hne, if_neg (by omega : ¬1000 < utf16Length m.content)]
  unfold forwardedDoc
  rfl

/-- C9: forwarding an accessible message to an existing receiver creates a
new message with the original's content and messageType, a fresh id, the
forwarder as sender, and status `sent`, while the original (and the whole
prior store) is left untouched. -/
theorem C9_forward_roundtrip (users : List Nat) (st : Store) (m : Message)
    (requester receiverId now : Nat)
    (hnodup : (st.map Message.id).Nodup) (hm : m ∈ st)
    (hacc : requester = m.sender ∨ requester = m.receiver)
    (hrecv : receiverId ∈ users)
    (htrim : jsTrim m.content = m.content) (hne : m.content ≠ "")
    (hlen : utf16Length m.content ≤ 1000) :
    forwardMessage users st m.id requester receiverId now =
      (Except.ok (forwardedDoc st requester receiverId m now),
       st ++ [forwardedDoc st requester receiverId m now]) ∧
    (forwardedDoc st requester receiverId m now).content = m.content ∧
    (forwardedDoc st requester receiverId m now).messageType = m.messageType ∧
    (forwardedDoc st requester receiverId m now).sender = requester ∧
    (forwardedDoc st requester receiverId m now).status = Status.sent ∧
    (forwardedDoc st requester receiverId m now).id ∉ st.map Message.id ∧
    (forwardedDoc st requester receiverId m now).id ≠ m.id := by
  refine ⟨forwardMessage_eq users st m requester receiverId now hnodup hm hacc
    hrecv htrim hne hlen, rfl, rfl, rfl, rfl, nextId_not_mem, ?_⟩
  intro h
  exact @nextId_not_mem st (by
    rw [show nextId st = m.id from h]
    exact List.mem_map_of_mem Message.id hm)

/-- C9 witness: forwarding the concrete sent message. -/
theorem C9_forward_roundtrip_witness :
    forwardMessage [1, 2] [msgSent] msgSent.id 1 2 50 =
      (Except.ok (forwardedDoc [msgSent] 1 2 msgSent 50),
       [msgSent] ++ [forwardedDoc [msgSent] 1 2 msgSent 50]) ∧
    (forwardedDoc [msgSent] 1 2 msgSent 50).content = msgSent.content ∧
    (forwardedDoc [msgSent] 1 2 msgSent 50).messageType = msgSent.messageType ∧
    (forwardedDoc [msgSent] 1 2 msgSent 50).sender = 1 ∧
    (forwardedDoc [msgSent] 1 2 msgSent 50).status = Status.sent ∧
    (forwardedDoc [msgSent] 1 2 msgSent 50).id ∉ [msgSent].map Message.id ∧
    (forwardedDoc [msgSent] 1 2 msgSent 50).id ≠ msgSent.id :=
  C9_forward_roundtrip [1, 2] [msgSent] msgSent 1 2 50 (by decide) (by decide)
    (Or.inl rfl) (by decide) rfl (by decide) (by decide)

/-- C10: `forwardMessage` never consults `isDeleted` on the original — a
soft-deleted original accessible to the requester is forwarded successfully,
producing a fresh non-deleted message carrying the deleted content. -/
theorem C10_forward_ignores_soft_delete (users : List Nat) (st : Store)
    (m : Message) (requester receiverId now : Nat)
    (hnodup : (st.map Message.id).Nodup) (hm : m ∈ st)
    (hdel : m.isDeleted = true)
    (hacc : requester = m.sender ∨ requester = m.receiver)
    (hrecv : receiverId ∈ users)
    (htrim : jsTrim m.content = m.content) (hne : m.content ≠ "")
    (hlen : utf16Length m.content ≤ 1000) :
    forwardMessage users st m.id requester receiverId now =
      (Except.ok (forwardedDoc st requester receiverId m now),
       st ++ [forwardedDoc st requester receiverId m now]) ∧
    (forwardedDoc st requester receiverId m now).isDeleted = false ∧
    (forwardedDoc st requester receiverId m now).content = m.content :=
  ⟨forwardMessage_eq users st m requester receiverId now hnodup hm hacc
    hrecv htrim hne hlen, rfl, rfl⟩

/-- C10 witness: forwarding the concrete soft-deleted message succeeds. -/
theorem C10_forward_ignores_soft_delete_witness :
    forwardMessage [1, 2] [msgDeleted] msgDeleted.id 1 2 50 =
      (Except.ok (forwardedDoc [msgDeleted] 1 2 msgDeleted 50),
       [msgDeleted] ++ [forwardedDoc [msgDeleted] 1 2 msgDeleted 50]) ∧
    (forwardedDoc [msgDeleted] 1 2 msgDeleted 50).isDeleted = false ∧
    (forwardedDoc [msgDeleted] 1 2 msgDeleted 50).content = msgDeleted.content :=
  C10_forward_ignores_soft_delete [1, 2] [msgDeleted] msgDeleted 1 2 50
    (by decide) (by decide) rfl (Or.inl rfl) (by decide) rfl (by decide) (by decide)

end WhatsApp
